import Mathlib

/-!
Verification development for the zkUSD collateral vault contract
(`src/zkusd-vault.ts`).

The contract is an o1js (Mina) zkApp.  Its arithmetic lives in the Pallas
base field (the o1js `Field` type, a prime field of order `P` below) and in
`UInt64`, o1js unsigned 64-bit integers whose `add`/`sub`/`mul` operations
range-check their result (a proof cannot be produced when the result leaves
`[0, 2^64)`), and whose values embed into `Field` via `toFields()[0]`.

We embed the contract shallowly:
* `Field` values are naturals in `[0, P)`; field multiplication and
  subtraction are modelled by `fieldMul` / `fieldSub` (mod `P`).
* `UInt64` values are naturals `< 2^64`; the checked operations are
  `u64add` / `u64sub` / `u64mul`, which return `Except` and fail exactly
  when the o1js range check would fail.
* A failed `assert...` in a method makes the whole transaction fail, with
  no state written (zkApp methods are atomic), so every method is a
  function `... -> Except VaultError ...`; an `Except.error` result means
  the operation rejected and the on-chain vault state is unchanged.
* `Poseidon.hash (secret.toFields())` is an arbitrary function
  `hash : Nat -> Nat` passed as a parameter; the contract only compares
  its output with the stored `ownershipHash`.
* The external collaborators (token ledger mint/burn, the oracle which
  supplies `price`, the protocol vault which supplies the protocol fee,
  the account balance of the vault) are modelled as parameters; their
  calls are assumed to succeed, as the spec assumes (spec section 6).
-/

/-- Order of the o1js `Field` (the Pallas base field used by Mina):
`2^254 + 45560315531419706090280762371685220353`. -/
def P : Nat := 2 ^ 254 + 45560315531419706090280762371685220353

/-- o1js `Field.mul`: multiplication mod `P`. -/
def fieldMul (a b : Nat) : Nat := a * b % P

/-- o1js `Field.sub`: subtraction mod `P`. -/
def fieldSub (a b : Nat) : Nat := (a + (P - b % P)) % P

/-- `UInt64.MAXINT()`: the maximum representable `UInt64` value. -/
def MAXINT : Nat := 2 ^ 64 - 1

/-- `2^64`, the strict upper bound of the `UInt64` range. -/
def U64LIMIT : Nat := 2 ^ 64

/-- `ZkUsdVault.UNIT_PRECISION = 1e9` (Mina has 9 decimal places). -/
def UNIT_PRECISION : Nat := 10 ^ 9

/-- `ZkUsdVault.MIN_HEALTH_FACTOR = 100`. -/
def MIN_HEALTH_FACTOR : Nat := 100

/-- Error outcomes of the vault methods.  The string messages of
`ZkUsdVaultErrors` are mapped to constructors; `divisionByZero` is the
message of `fieldIntegerDiv`; `constraintFailed` stands for a failed
in-circuit constraint of `fieldIntegerDiv`; `rangeCheckFailed` stands for
a failed 64-bit range check inside a `UInt64` `add`/`sub`/`mul`;
`flagNotSet` stands for the failed `requireEquals` precondition in
`assertInteractionFlag`. -/
inductive VaultError where
  | amountZero
  | balanceZero
  | healthFactorTooLow
  | healthFactorTooHigh
  | amountExceedsDebt
  | invalidSecret
  | insufficientCollateral
  | divisionByZero
  | constraintFailed
  | rangeCheckFailed
  | flagNotSet
deriving DecidableEq, Repr

/-- `ZkUsdVault.fieldIntegerDiv(x, y)`.  The method asserts `y != 0`,
witnesses the quotient `q = floor(x/y)` out of circuit (bigint division of
the field values), re-derives `r = x - q*y` in the field, and asserts
`r >= 0` (trivial for a field element read as a natural), `r < y`, and
`x = q*y + r` before returning `q`.  Inputs are field values in `[0, P)`. -/
def fieldIntegerDiv (x y : Nat) : Except VaultError Nat :=
  if y = 0 then Except.error VaultError.divisionByZero
  else
    let q := x / y
    let r := fieldSub x (fieldMul q y)
    if r < y ∧ x % P = (fieldMul q y + r) % P then Except.ok q
    else Except.error VaultError.constraintFailed

/-- `ZkUsdVault.safeDiv(numerator, denominator)`: substitutes denominator
`1` when the denominator is zero (`Provable.if` evaluates the division on
the safe denominator unconditionally) and returns
`UInt64.MAXINT().toFields()[0]` in the zero-denominator case. -/
def safeDiv (numerator denominator : Nat) : Except VaultError Nat :=
  Except.bind (fieldIntegerDiv numerator (if denominator = 0 then 1 else denominator))
    fun divisionResult =>
      Except.ok (if denominator = 0 then MAXINT else divisionResult)

/-- `ZkUsdVault.calculateUsdValue(amount, price)`:
`fieldIntegerDiv(amount * price, UNIT_PRECISION)` on the `Field`
embeddings of the two `UInt64` arguments. -/
def calculateUsdValue (amount price : Nat) : Except VaultError Nat :=
  fieldIntegerDiv (fieldMul amount price) UNIT_PRECISION

/-- `ZkUsdVault.calculateMaxAllowedDebt(collateralValue)`:
`fieldIntegerDiv(collateralValue * 100, 150) * 100`
(`COLLATERAL_RATIO_PRECISION = 100`, the collateral ratio constant is
`150`). -/
def calculateMaxAllowedDebt (collateralValue : Nat) : Except VaultError Nat :=
  Except.bind (fieldIntegerDiv (fieldMul collateralValue 100) 150)
    fun maxAllowedDebt => Except.ok (fieldMul maxAllowedDebt 100)

/-- `ZkUsdVault.calculateHealthFactor(collateralAmount, debtAmount, price)`.
The final `UInt64.fromFields` does not constrain or reduce the field value,
so the result is the raw `safeDiv` output. -/
def calculateHealthFactor (collateralAmount debtAmount price : Nat) :
    Except VaultError Nat :=
  Except.bind (calculateUsdValue collateralAmount price) fun collateralValue =>
    Except.bind (calculateMaxAllowedDebt collateralValue) fun maxAllowedDebt =>
      safeDiv maxAllowedDebt debtAmount

/-- Specification-side health factor, written from the spec formula
(spec section 4.2): `collateralValueUsd = floor(collateral * price / 1e9)`,
`maxAllowedDebt = floor(collateralValueUsd * 100 / 150) * 100`,
`healthFactor = safeDiv(maxAllowedDebt, debt)` with `debt = 0` giving the
maximum representable value.  Used to state the refinement claims against
`calculateHealthFactor`. -/
def healthFactorSpec (collateralAmount debtAmount price : Nat) : Nat :=
  if debtAmount = 0 then MAXINT
  else collateralAmount * price / UNIT_PRECISION * 100 / 150 * 100 / debtAmount

/-- o1js `UInt64.add`: range-checks the sum. -/
def u64add (a b : Nat) : Except VaultError Nat :=
  if a + b < U64LIMIT then Except.ok (a + b)
  else Except.error VaultError.rangeCheckFailed

/-- o1js `UInt64.sub`: range-checks the difference (fails on underflow). -/
def u64sub (a b : Nat) : Except VaultError Nat :=
  if b ≤ a then Except.ok (a - b)
  else Except.error VaultError.rangeCheckFailed

/-- o1js `UInt64.mul`: range-checks the product. -/
def u64mul (a b : Nat) : Except VaultError Nat :=
  if a * b < U64LIMIT then Except.ok (a * b)
  else Except.error VaultError.rangeCheckFailed

/-- The on-chain state of `ZkUsdVault` (its four `@state` fields). -/
structure VaultState where
  collateralAmount : Nat
  debtAmount : Nat
  ownershipHash : Nat
  interactionFlag : Bool
deriving DecidableEq, Repr

/-- `ZkUsdVault.depositCollateral(amount, secret)`: asserts `amount > 0`
(`AMOUNT_ZERO`), asserts `Poseidon.hash(secret) = ownershipHash`
(`INVALID_SECRET`), transfers `amount` from the sender (ledger effect, out
of model), and sets `collateralAmount := collateralAmount + amount`
(checked `UInt64` addition). -/
def depositCollateral (hash : Nat → Nat) (s : VaultState) (amount secret : Nat) :
    Except VaultError VaultState :=
  if amount = 0 then Except.error VaultError.amountZero
  else if hash secret ≠ s.ownershipHash then Except.error VaultError.invalidSecret
  else
    Except.bind (u64add s.collateralAmount amount) fun newCollateral =>
      Except.ok { s with collateralAmount := newCollateral }

/-- `ZkUsdVault.redeemCollateral(amount, secret)`.  `balance` is the
vault account's balance, `price` the oracle price, `fee` the protocol fee
read from the protocol vault.  Asserts, in order: `balance > 0`
(`BALANCE_ZERO`), the ownership secret (`INVALID_SECRET`),
`amount <= collateralAmount` (`INSUFFICIENT_COLLATERAL`), and
`healthFactor(collateral - amount, debt, price) >= 100`
(`HEALTH_FACTOR_TOO_LOW`).  Then `stakingRewards = balance - collateral`
(checked sub), `protocolFee = stakingRewards * fee / 100` (checked mul),
the dividend `stakingRewards - protocolFee` (checked sub) is paid to the
sender together with `amount` (checked add), and
`collateralAmount := collateral - amount`.  Returns the new state and the
amount sent to the caller. -/
def redeemCollateral (hash : Nat → Nat) (s : VaultState)
    (balance price fee amount secret : Nat) :
    Except VaultError (VaultState × Nat) :=
  if balance = 0 then Except.error VaultError.balanceZero
  else if hash secret ≠ s.ownershipHash then Except.error VaultError.invalidSecret
  else if ¬ amount ≤ s.collateralAmount then Except.error VaultError.insufficientCollateral
  else
    Except.bind (u64sub s.collateralAmount amount) fun remainingCollateral =>
      Except.bind (calculateHealthFactor remainingCollateral s.debtAmount price)
        fun healthFactor =>
          if healthFactor < MIN_HEALTH_FACTOR then Except.error VaultError.healthFactorTooLow
          else
            Except.bind (u64sub balance s.collateralAmount) fun stakingRewards =>
              Except.bind (u64mul stakingRewards fee) fun feeNumerator =>
                Except.bind (u64sub stakingRewards (feeNumerator / 100))
                  fun stakingRewardsDividend =>
                    Except.bind (u64add amount stakingRewardsDividend) fun payout =>
                      Except.ok
                        ({ s with collateralAmount := remainingCollateral }, payout)

/-- `ZkUsdVault.mintZkUsd(recipient, amount, secret)`: asserts
`amount > 0` (`AMOUNT_ZERO`), the ownership secret (`INVALID_SECRET`), and
`healthFactor(collateral, debt + amount, price) >= 100`
(`HEALTH_FACTOR_TOO_LOW`; the new debt is a checked `UInt64` addition);
then mints on the token ledger (external, out of model), sets
`debtAmount := debt + amount` and `interactionFlag := true`.  The
recipient only flows into the external mint call. -/
def mintZkUsd (hash : Nat → Nat) (s : VaultState) (price amount secret : Nat) :
    Except VaultError VaultState :=
  if amount = 0 then Except.error VaultError.amountZero
  else if hash secret ≠ s.ownershipHash then Except.error VaultError.invalidSecret
  else
    Except.bind (u64add s.debtAmount amount) fun newDebt =>
      Except.bind (calculateHealthFactor s.collateralAmount newDebt price)
        fun healthFactor =>
          if healthFactor < MIN_HEALTH_FACTOR then Except.error VaultError.healthFactorTooLow
          else Except.ok { s with debtAmount := newDebt, interactionFlag := true }

/-- `ZkUsdVault.burnZkUsd(amount, secret)`: asserts `amount > 0`
(`AMOUNT_ZERO`), the ownership secret (`INVALID_SECRET`), and
`debtAmount >= amount` (`AMOUNT_EXCEEDS_DEBT`); sets
`debtAmount := debt - amount` and burns on the token ledger (external). -/
def burnZkUsd (hash : Nat → Nat) (s : VaultState) (amount secret : Nat) :
    Except VaultError VaultState :=
  if amount = 0 then Except.error VaultError.amountZero
  else if hash secret ≠ s.ownershipHash then Except.error VaultError.invalidSecret
  else if ¬ amount ≤ s.debtAmount then Except.error VaultError.amountExceedsDebt
  else
    Except.bind (u64sub s.debtAmount amount) fun newDebt =>
      Except.ok { s with debtAmount := newDebt }

/-- `ZkUsdVault.liquidate()`: takes no secret; asserts
`healthFactor(collateral, debt, price) <= 100` (`HEALTH_FACTOR_TOO_HIGH`),
sends the whole `collateralAmount` to the caller, zeroes both balances and
burns the whole debt from the caller on the token ledger (external).
Returns the new state and the amount sent to the caller. -/
def liquidate (s : VaultState) (price : Nat) :
    Except VaultError (VaultState × Nat) :=
  Except.bind (calculateHealthFactor s.collateralAmount s.debtAmount price)
    fun healthFactor =>
      if MIN_HEALTH_FACTOR < healthFactor then Except.error VaultError.healthFactorTooHigh
      else
        Except.ok ({ s with collateralAmount := 0, debtAmount := 0 }, s.collateralAmount)

/-- `ZkUsdVault.assertInteractionFlag()`: requires
`interactionFlag = true` (a failed `requireEquals` precondition aborts the
transaction), then resets it to `false` and returns `true`. -/
def assertInteractionFlag (s : VaultState) : Except VaultError (VaultState × Bool) :=
  if s.interactionFlag = true then
    Except.ok ({ s with interactionFlag := false }, true)
  else Except.error VaultError.flagNotSet

theorem except_bind_ok {α β : Type} (v : α) (f : α → Except VaultError β) :
    Except.bind (Except.ok v) f = f v := rfl

theorem fieldIntegerDiv_ok (x y : Nat) (hx : x < P) (hy : 0 < y) :
    fieldIntegerDiv x y = Except.ok (x / y) := by
  have hy0 : y ≠ 0 := Nat.pos_iff_ne_zero.mp hy
  have hqy : x / y * y ≤ x := Nat.div_mul_le_self x y
  have hqyP : x / y * y < P := lt_of_le_of_lt hqy hx
  have hmul : fieldMul (x / y) y = x / y * y := Nat.mod_eq_of_lt hqyP
  have hmod : y * (x / y) + x % y = x := Nat.div_add_mod x y
  have hmod' : x / y * y + x % y = x := by rw [Nat.mul_comm y (x / y)] at hmod; exact hmod
  have hsub : fieldSub x (x / y * y) = x % y := by
    unfold fieldSub
    rw [Nat.mod_eq_of_lt hqyP]
    have h1 : x + (P - x / y * y) = (x - x / y * y) + P := by omega
    rw [h1, Nat.add_mod_right]
    have h2 : x - x / y * y = x % y := by omega
    rw [h2]
    exact Nat.mod_eq_of_lt (lt_of_le_of_lt (Nat.mod_le x y) hx)
  unfold fieldIntegerDiv
  rw [if_neg hy0]
  simp only [hmul, hsub]
  rw [if_pos]
  constructor
  · exact Nat.mod_lt x hy
  · rw [hmod']

theorem u64add_ok (a b : Nat) (h : a + b < U64LIMIT) :
    u64add a b = Except.ok (a + b) := by
  unfold u64add; rw [if_pos h]

theorem safeDiv_ok (n d : Nat) (hn : n < P) :
    safeDiv n d = Except.ok (if d = 0 then MAXINT else n / d) := by
  unfold safeDiv
  by_cases hd : d = 0
  · rw [if_pos hd, fieldIntegerDiv_ok n 1 hn (by norm_num), except_bind_ok, if_pos hd,
      if_pos hd]
  · rw [if_neg hd, fieldIntegerDiv_ok n d hn (Nat.pos_of_ne_zero hd), except_bind_ok,
      if_neg hd]

theorem calculateUsdValue_ok (a p : Nat) (hap : a * p < P) :
    calculateUsdValue a p = Except.ok (a * p / UNIT_PRECISION) := by
  unfold calculateUsdValue
  rw [show fieldMul a p = a * p from Nat.mod_eq_of_lt hap]
  exact fieldIntegerDiv_ok _ _ hap (by norm_num [UNIT_PRECISION])

theorem calculateMaxAllowedDebt_ok (cv : Nat) (h1 : cv * 100 < P)
    (h2 : cv * 100 / 150 * 100 < P) :
    calculateMaxAllowedDebt cv = Except.ok (cv * 100 / 150 * 100) := by
  unfold calculateMaxAllowedDebt
  rw [show fieldMul cv 100 = cv * 100 from Nat.mod_eq_of_lt h1]
  rw [fieldIntegerDiv_ok _ _ h1 (by norm_num), except_bind_ok]
  rw [show fieldMul (cv * 100 / 150) 100 = cv * 100 / 150 * 100 from Nat.mod_eq_of_lt h2]

theorem hf_bound_1 (a p : Nat) (ha : a < U64LIMIT) (hp : p < U64LIMIT) :
    a * p < P := by
  have h : a * p < U64LIMIT * U64LIMIT := Nat.mul_lt_mul'' ha hp
  calc a * p < U64LIMIT * U64LIMIT := h
    _ < P := by norm_num [U64LIMIT, P]

theorem hf_bound_2 (a p : Nat) (ha : a < U64LIMIT) (hp : p < U64LIMIT) :
    a * p / UNIT_PRECISION * 100 < P := by
  have h1 : a * p / UNIT_PRECISION ≤ a * p := Nat.div_le_self _ _
  have h2 : a * p < U64LIMIT * U64LIMIT := Nat.mul_lt_mul'' ha hp
  have h3 : a * p / UNIT_PRECISION * 100 ≤ a * p * 100 := Nat.mul_le_mul_right 100 h1
  calc a * p / UNIT_PRECISION * 100 ≤ a * p * 100 := h3
    _ < U64LIMIT * U64LIMIT * 100 := (Nat.mul_lt_mul_right (by norm_num)).mpr h2
    _ < P := by norm_num [U64LIMIT, P]

theorem hf_bound_3 (a p : Nat) (ha : a < U64LIMIT) (hp : p < U64LIMIT) :
    a * p / UNIT_PRECISION * 100 / 150 * 100 < P := by
  have h1 : a * p / UNIT_PRECISION * 100 / 150 ≤ a * p / UNIT_PRECISION * 100 :=
    Nat.div_le_self _ _
  have h2 := hf_bound_2 a p ha hp
  have h3 : a * p / UNIT_PRECISION * 100 / 150 * 100 ≤ a * p / UNIT_PRECISION * 100 * 100 :=
    Nat.mul_le_mul_right 100 h1
  have h4 : a * p / UNIT_PRECISION * 100 ≤ a * p * 100 :=
    Nat.mul_le_mul_right 100 (Nat.div_le_self _ _)
  have h5 : a * p < U64LIMIT * U64LIMIT := Nat.mul_lt_mul'' ha hp
  calc a * p / UNIT_PRECISION * 100 / 150 * 100
      ≤ a * p / UNIT_PRECISION * 100 * 100 := h3
    _ ≤ a * p * 100 * 100 := Nat.mul_le_mul_right 100 h4
    _ < U64LIMIT * U64LIMIT * 100 * 100 := by
        exact (Nat.mul_lt_mul_right (by norm_num)).mpr ((Nat.mul_lt_mul_right (by norm_num)).mpr h5)
    _ < P := by norm_num [U64LIMIT, P]

theorem calculateHealthFactor_ok (c d p : Nat) (hc : c < U64LIMIT)
    (hp : p < U64LIMIT) :
    calculateHealthFactor c d p = Except.ok (healthFactorSpec c d p) := by
  unfold calculateHealthFactor
  rw [calculateUsdValue_ok c p (hf_bound_1 c p hc hp), except_bind_ok]
  rw [calculateMaxAllowedDebt_ok _ (hf_bound_2 c p hc hp) (hf_bound_3 c p hc hp),
    except_bind_ok]
  rw [safeDiv_ok _ d (hf_bound_3 c p hc hp)]
  unfold healthFactorSpec
  by_cases hd : d = 0
  · rw [if_pos hd]
  · rw [if_neg hd]

theorem except_bind_error {α β : Type} (e : VaultError) (f : α → Except VaultError β) :
    Except.bind (Except.error e : Except VaultError α) f = Except.error e := rfl

/-- C1: for every `collateralAmount`, `debtAmount` and `price` (all `UInt64`
values), `calculateHealthFactor` equals the spec formula
`safeDiv(floor(floor(collateral * price / 1e9) * 100 / 150) * 100, debt)`,
and in particular evaluates to `66`, `133` and `100` on the three quoted
inputs. -/
theorem C1_calculateHealthFactor_formula (c d p : Nat) (hc : c < U64LIMIT)
    (hd : d < U64LIMIT) (hp : p < U64LIMIT) :
    calculateHealthFactor c d p = Except.ok (healthFactorSpec c d p) ∧
    calculateHealthFactor (10 ^ 9) (10 ^ 9) (10 ^ 9) = Except.ok 66 ∧
    calculateHealthFactor (2 * 10 ^ 9) (10 ^ 9) (10 ^ 9) = Except.ok 133 ∧
    calculateHealthFactor (15 * 10 ^ 8) (10 ^ 9) (10 ^ 9) = Except.ok 100 :=
  ⟨calculateHealthFactor_ok c d p hc hp, rfl, rfl, rfl⟩

/-- Closed instance of C1. -/
theorem C1_witness :
    calculateHealthFactor 7 5 (10 ^ 9) = Except.ok (healthFactorSpec 7 5 (10 ^ 9)) :=
  (C1_calculateHealthFactor_formula 7 5 (10 ^ 9) (by decide) (by decide) (by decide)).1

/-- C4: with zero debt the health factor is the maximum representable
`UInt64` value, and the computation is total on `UInt64` inputs: it never
returns the division-by-zero error (the only caller-controlled denominator
goes through `safeDiv`, which substitutes `1` for a zero denominator). -/
theorem C4_zero_debt_total (c d p : Nat) (hc : c < U64LIMIT) (hd : d < U64LIMIT)
    (hp : p < U64LIMIT) :
    (d = 0 → calculateHealthFactor c d p = Except.ok MAXINT) ∧
    (∃ hf, calculateHealthFactor c d p = Except.ok hf) ∧
    calculateHealthFactor c d p ≠ Except.error VaultError.divisionByZero := by
  refine ⟨fun h0 => ?_, ⟨healthFactorSpec c d p, calculateHealthFactor_ok c d p hc hp⟩,
    fun h => ?_⟩
  · rw [calculateHealthFactor_ok c d p hc hp]
    unfold healthFactorSpec
    rw [if_pos h0]
  · rw [calculateHealthFactor_ok c d p hc hp] at h
    exact Except.noConfusion h

/-- Closed instance of C4. -/
theorem C4_witness : calculateHealthFactor 3 0 7 = Except.ok MAXINT :=
  (C4_zero_debt_total 3 0 7 (by decide) (by decide) (by decide)).1 rfl

/-- C7: `fieldIntegerDiv` computes the floor quotient for every nonzero
denominator, the asserted constraints `x = q*y + r`, `0 <= r < y` hold for
that quotient, and a zero denominator yields the division-by-zero error. -/
theorem C7_fieldIntegerDiv_correct (x y : Nat) (hx : x < P) (hy : y < P) :
    (y ≠ 0 → fieldIntegerDiv x y = Except.ok (x / y) ∧
      x = x / y * y + x % y ∧ x % y < y) ∧
    (y = 0 → fieldIntegerDiv x y = Except.error VaultError.divisionByZero) := by
  constructor
  · intro h
    refine ⟨fieldIntegerDiv_ok x y hx (Nat.pos_of_ne_zero h), ?_,
      Nat.mod_lt x (Nat.pos_of_ne_zero h)⟩
    have h1 : y * (x / y) + x % y = x := Nat.div_add_mod x y
    rw [Nat.mul_comm] at h1
    omega
  · intro h
    unfold fieldIntegerDiv
    rw [if_pos h]

/-- Closed instance of C7. -/
theorem C7_witness : fieldIntegerDiv 7 2 = Except.ok (7 / 2) ∧
    7 = 7 / 2 * 2 + 7 % 2 ∧ 7 % 2 < 2 :=
  (C7_fieldIntegerDiv_correct 7 2 (by decide) (by decide)).1 (by decide)

/-- C5 counterexample: scaling collateral and debt by `k = 3` changes the
health factor at `c = 1`, `d = 1`, `p = 1e9` (`0` versus `66`): the claim
as stated is false. -/
theorem C5_counterexample :
    ¬ calculateHealthFactor 1 1 (10 ^ 9) = calculateHealthFactor (3 * 1) (3 * 1) (10 ^ 9) := by
  intro h
  have h1 : calculateHealthFactor 1 1 (10 ^ 9) = Except.ok 0 := rfl
  have h2 : calculateHealthFactor (3 * 1) (3 * 1) (10 ^ 9) = Except.ok 66 := rfl
  rw [h1, h2] at h
  exact absurd (Except.ok.inj h) (by decide)

/-- C5 amended: scale invariance holds whenever the two intermediate floor
divisions are exact, i.e. when `3 * 1e9` divides `collateral * price`
(the final `safeDiv` is always scale invariant). -/
theorem C5_scale_invariance (c d p k : Nat) (hk : 0 < k) (hc : k * c < U64LIMIT)
    (hd : k * d < U64LIMIT) (hp : p < U64LIMIT)
    (hdvd : 3 * UNIT_PRECISION ∣ c * p) :
    calculateHealthFactor c d p = calculateHealthFactor (k * c) (k * d) p := by
  have hc1 : c < U64LIMIT := lt_of_le_of_lt (Nat.le_mul_of_pos_left c hk) hc
  rw [calculateHealthFactor_ok c d p hc1 hp,
    calculateHealthFactor_ok (k * c) (k * d) p hc hp]
  obtain ⟨m, hm⟩ := hdvd
  rw [UNIT_PRECISION] at hm
  simp only [healthFactorSpec, UNIT_PRECISION]
  have e1 : c * p / 10 ^ 9 = 3 * m := by
    rw [hm, show 3 * 10 ^ 9 * m = 3 * m * 10 ^ 9 by ring]
    exact Nat.mul_div_cancel _ (by norm_num)
  have e2 : 3 * m * 100 / 150 = 2 * m := by
    rw [show 3 * m * 100 = 2 * m * 150 by ring]
    exact Nat.mul_div_cancel _ (by norm_num)
  have e1k : k * c * p / 10 ^ 9 = 3 * (k * m) := by
    rw [show k * c * p = k * (c * p) by ring, hm,
      show k * (3 * 10 ^ 9 * m) = 3 * (k * m) * 10 ^ 9 by ring]
    exact Nat.mul_div_cancel _ (by norm_num)
  have e2k : 3 * (k * m) * 100 / 150 = 2 * (k * m) := by
    rw [show 3 * (k * m) * 100 = 2 * (k * m) * 150 by ring]
    exact Nat.mul_div_cancel _ (by norm_num)
  by_cases hd0 : d = 0
  · rw [if_pos hd0, if_pos (by rw [hd0, Nat.mul_zero] : k * d = 0)]
  · have hkd0 : ¬ k * d = 0 := Nat.mul_ne_zero (Nat.pos_iff_ne_zero.mp hk) hd0
    rw [if_neg hd0, if_neg hkd0, e1, e2, e1k, e2k,
      show 2 * (k * m) * 100 = k * (2 * m * 100) by ring,
      Nat.mul_div_mul_left _ _ hk]

/-- Closed instance of the amended C5. -/
theorem C5_witness :
    calculateHealthFactor 3 2 (10 ^ 9) = calculateHealthFactor (2 * 3) (2 * 2) (10 ^ 9) :=
  C5_scale_invariance 3 2 (10 ^ 9) 2 (by decide) (by decide) (by decide) (by decide)
    ⟨1, rfl⟩

/-- C8 counterexample: with the maximum `UInt64` collateral already in the
vault, a deposit of `1` with the correct secret fails the 64-bit range
check on `collateralAmount + amount` instead of succeeding, so the claim
as stated is false. -/
theorem C8_counterexample :
    depositCollateral id ⟨U64LIMIT - 1, 0, 0, false⟩ 1 0 =
      Except.error VaultError.rangeCheckFailed ∧
    (1 : Nat) ≠ 0 ∧ id (0 : Nat) = (0 : Nat) :=
  ⟨rfl, by decide, rfl⟩

/-- C8 amended: `depositCollateral` with a positive amount, the correct
secret and `collateralAmount + amount < 2^64` (the `UInt64` addition range
check) adds exactly `amount` to `collateralAmount` and changes nothing
else; a zero amount rejects with `AmountZero`, a wrong secret with
`InvalidSecret`, and a rejected zkApp method writes no state. -/
theorem C8_depositCollateral_spec (hash : Nat → Nat) (s : VaultState)
    (amount secret : Nat) :
    (amount ≠ 0 → hash secret = s.ownershipHash →
      s.collateralAmount + amount < U64LIMIT →
      depositCollateral hash s amount secret =
        Except.ok { s with collateralAmount := s.collateralAmount + amount }) ∧
    (amount = 0 →
      depositCollateral hash s amount secret = Except.error VaultError.amountZero) ∧
    (amount ≠ 0 → hash secret ≠ s.ownershipHash →
      depositCollateral hash s amount secret = Except.error VaultError.invalidSecret) := by
  refine ⟨fun h1 h2 h3 => ?_, fun h1 => ?_, fun h1 h2 => ?_⟩
  · unfold depositCollateral
    rw [if_neg h1, if_neg (not_not_intro h2), u64add_ok _ _ h3, except_bind_ok]
  · unfold depositCollateral
    rw [if_pos h1]
  · unfold depositCollateral
    rw [if_neg h1, if_pos h2]

/-- Closed instance of the amended C8. -/
theorem C8_witness :
    depositCollateral id ⟨5, 1, 9, false⟩ 2 9 =
      Except.ok { (⟨5, 1, 9, false⟩ : VaultState) with collateralAmount := 5 + 2 } :=
  (C8_depositCollateral_spec id ⟨5, 1, 9, false⟩ 2 9).1 (by decide) rfl (by decide)

/-- C2: `mintZkUsd` succeeds only when the amount is positive, the secret
hashes to the ownership commitment and the hypothetical health factor at
debt `debtAmount + amount` is at least `100`; on success the new debt is
`debtAmount + amount` and the interaction flag is set; with positive
amount, correct secret and representable new debt, a hypothetical health
factor below `100` rejects with `HealthFactorTooLow` (a rejected zkApp
method writes no state, so the debt is unchanged). -/
theorem C2_mintZkUsd_guard (hash : Nat → Nat) (s : VaultState)
    (price amount secret : Nat) (hc : s.collateralAmount < U64LIMIT)
    (hp : price < U64LIMIT) :
    (∀ s', mintZkUsd hash s price amount secret = Except.ok s' →
      amount ≠ 0 ∧ hash secret = s.ownershipHash ∧
      MIN_HEALTH_FACTOR ≤
        healthFactorSpec s.collateralAmount (s.debtAmount + amount) price ∧
      s'.debtAmount = s.debtAmount + amount ∧ s'.interactionFlag = true) ∧
    (amount ≠ 0 → hash secret = s.ownershipHash →
      s.debtAmount + amount < U64LIMIT →
      healthFactorSpec s.collateralAmount (s.debtAmount + amount) price <
        MIN_HEALTH_FACTOR →
      mintZkUsd hash s price amount secret =
        Except.error VaultError.healthFactorTooLow) := by
  constructor
  · intro s' h
    unfold mintZkUsd at h
    by_cases h1 : amount = 0
    · rw [if_pos h1] at h
      exact Except.noConfusion h
    rw [if_neg h1] at h
    by_cases h2 : hash secret ≠ s.ownershipHash
    · rw [if_pos h2] at h
      exact Except.noConfusion h
    rw [if_neg h2] at h
    rw [Decidable.not_not] at h2
    by_cases h3 : s.debtAmount + amount < U64LIMIT
    · rw [u64add_ok _ _ h3, except_bind_ok,
        calculateHealthFactor_ok _ _ _ hc hp, except_bind_ok] at h
      by_cases h4 : healthFactorSpec s.collateralAmount (s.debtAmount + amount) price <
          MIN_HEALTH_FACTOR
      · rw [if_pos h4] at h
        exact Except.noConfusion h
      · rw [if_neg h4] at h
        have h5 := Except.ok.inj h
        exact ⟨h1, h2, Nat.le_of_not_lt h4, by rw [← h5], by rw [← h5]⟩
    · have he : u64add s.debtAmount amount = Except.error VaultError.rangeCheckFailed := by
        unfold u64add
        rw [if_neg h3]
      rw [he, except_bind_error] at h
      exact Except.noConfusion h
  · intro h1 h2 h3 h4
    unfold mintZkUsd
    rw [if_neg h1, if_neg (not_not_intro h2), u64add_ok _ _ h3, except_bind_ok,
      calculateHealthFactor_ok _ _ _ hc hp, except_bind_ok, if_pos h4]

/-- Closed instance of C2. -/
theorem C2_witness :
    mintZkUsd id ⟨0, 0, 5, false⟩ 0 1 5 = Except.error VaultError.healthFactorTooLow :=
  (C2_mintZkUsd_guard id ⟨0, 0, 5, false⟩ 0 1 5 (by decide) (by decide)).2
    (by decide) rfl (by decide) (by decide)

/-- C3: `liquidate` takes no secret and succeeds exactly when the health
factor computed from the current balances and the oracle price is at most
`100`; on success both balances are zeroed (the ownership commitment is
untouched) and the whole prior collateral is sent to the caller; a health
factor above `100` rejects with `HealthFactorTooHigh` (a rejected zkApp
method writes no state). -/
theorem C3_liquidate_guard (s : VaultState) (price : Nat)
    (hc : s.collateralAmount < U64LIMIT) (hp : price < U64LIMIT) :
    ((∃ r, liquidate s price = Except.ok r) ↔
      healthFactorSpec s.collateralAmount s.debtAmount price ≤ MIN_HEALTH_FACTOR) ∧
    (∀ s' payout, liquidate s price = Except.ok (s', payout) →
      s'.collateralAmount = 0 ∧ s'.debtAmount = 0 ∧
      s'.ownershipHash = s.ownershipHash ∧ payout = s.collateralAmount) ∧
    (MIN_HEALTH_FACTOR < healthFactorSpec s.collateralAmount s.debtAmount price →
      liquidate s price = Except.error VaultError.healthFactorTooHigh) := by
  have hl : liquidate s price =
      if MIN_HEALTH_FACTOR < healthFactorSpec s.collateralAmount s.debtAmount price
      then Except.error VaultError.healthFactorTooHigh
      else Except.ok ({ s with collateralAmount := 0, debtAmount := 0 },
        s.collateralAmount) := by
    unfold liquidate
    rw [calculateHealthFactor_ok _ _ _ hc hp, except_bind_ok]
  rw [hl]
  by_cases h : MIN_HEALTH_FACTOR < healthFactorSpec s.collateralAmount s.debtAmount price
  · rw [if_pos h]
    refine ⟨⟨fun hr => ?_, fun h2 => absurd h (Nat.not_lt.mpr h2)⟩,
      fun s' payout h2 => Except.noConfusion h2, fun h3 => rfl⟩
    obtain ⟨r, hr⟩ := hr
    exact Except.noConfusion hr
  · rw [if_neg h]
    refine ⟨⟨fun hr => Nat.le_of_not_lt h, fun h2 => ⟨_, rfl⟩⟩,
      fun s' payout h2 => ?_, fun h3 => absurd h3 h⟩
    have h3 := Except.ok.inj h2
    injection h3 with h4 h5
    rw [← h4, ← h5]
    exact ⟨rfl, rfl, rfl, rfl⟩

/-- Closed instance of C3. -/
theorem C3_witness : ∃ r, liquidate ⟨1, 1, 0, false⟩ (10 ^ 9) = Except.ok r :=
  ((C3_liquidate_guard ⟨1, 1, 0, false⟩ (10 ^ 9) (by decide) (by decide)).1).mpr
    (by decide)

/-- C9: at collateral `1.5e9`, debt `1e9`, price `1e9` the health factor
is exactly `100`, so the liquidation guard (at most `100`) and the
mint/redeem guard (at least `100`) hold simultaneously: the same vault
state is liquidatable and still permitted to redeem (shown by a
successful zero-amount redemption) while satisfying the mint guard
condition. -/
theorem C9_boundary_overlap :
    calculateHealthFactor (15 * 10 ^ 8) (10 ^ 9) (10 ^ 9) =
      Except.ok MIN_HEALTH_FACTOR ∧
    healthFactorSpec (15 * 10 ^ 8) (10 ^ 9) (10 ^ 9) ≤ MIN_HEALTH_FACTOR ∧
    MIN_HEALTH_FACTOR ≤ healthFactorSpec (15 * 10 ^ 8) (10 ^ 9) (10 ^ 9) ∧
    liquidate ⟨15 * 10 ^ 8, 10 ^ 9, 0, false⟩ (10 ^ 9) =
      Except.ok (⟨0, 0, 0, false⟩, 15 * 10 ^ 8) ∧
    redeemCollateral id ⟨15 * 10 ^ 8, 10 ^ 9, 0, false⟩ (15 * 10 ^ 8) (10 ^ 9) 0 0 0 =
      Except.ok (⟨15 * 10 ^ 8, 10 ^ 9, 0, false⟩, 0) :=
  ⟨rfl, by decide, by decide, rfl, rfl⟩

/-- C10: the interaction flag is written by exactly two methods.
`depositCollateral`, `redeemCollateral`, `burnZkUsd` and `liquidate`
neither read nor write it: each behaves on a state with arbitrary flag `b`
exactly as on the same state with flag `true`, with the flag passed
through unchanged.  `mintZkUsd` is the only method that sets it to `true`,
and `assertInteractionFlag` requires it to be `true` and is the only
method that resets it to `false`.  (`burnZkUsd` in particular calls the
token ledger burn without touching the flag.) -/
theorem C10_interactionFlag_frame (hash : Nat → Nat) (c dAmt hcom : Nat) (b : Bool)
    (balance price fee amount secret : Nat) :
    (depositCollateral hash ⟨c, dAmt, hcom, b⟩ amount secret =
      Except.map (fun t => { t with interactionFlag := b })
        (depositCollateral hash ⟨c, dAmt, hcom, true⟩ amount secret)) ∧
    (redeemCollateral hash ⟨c, dAmt, hcom, b⟩ balance price fee amount secret =
      Except.map (fun r => ({ r.1 with interactionFlag := b }, r.2))
        (redeemCollateral hash ⟨c, dAmt, hcom, true⟩ balance price fee amount secret)) ∧
    (burnZkUsd hash ⟨c, dAmt, hcom, b⟩ amount secret =
      Except.map (fun t => { t with interactionFlag := b })
        (burnZkUsd hash ⟨c, dAmt, hcom, true⟩ amount secret)) ∧
    (liquidate ⟨c, dAmt, hcom, b⟩ price =
      Except.map (fun r => ({ r.1 with interactionFlag := b }, r.2))
        (liquidate ⟨c, dAmt, hcom, true⟩ price)) ∧
    (∀ s', mintZkUsd hash ⟨c, dAmt, hcom, b⟩ price amount secret = Except.ok s' →
      s'.interactionFlag = true) ∧
    (assertInteractionFlag ⟨c, dAmt, hcom, true⟩ =
      Except.ok (⟨c, dAmt, hcom, false⟩, true)) ∧
    (assertInteractionFlag ⟨c, dAmt, hcom, false⟩ =
      Except.error VaultError.flagNotSet) := by
  refine ⟨?_, ?_, ?_, ?_, ?_, rfl, rfl⟩
  · unfold depositCollateral
    dsimp only
    by_cases h1 : amount = 0
    · rw [if_pos h1, if_pos h1]
      rfl
    rw [if_neg h1, if_neg h1]
    by_cases h2 : hash secret ≠ hcom
    · rw [if_pos h2, if_pos h2]
      rfl
    rw [if_neg h2, if_neg h2]
    cases ha : u64add c amount with
    | error e => rfl
    | ok v => rfl
  · unfold redeemCollateral
    dsimp only
    by_cases h1 : balance = 0
    · rw [if_pos h1, if_pos h1]
      rfl
    rw [if_neg h1, if_neg h1]
    by_cases h2 : hash secret ≠ hcom
    · rw [if_pos h2, if_pos h2]
      rfl
    rw [if_neg h2, if_neg h2]
    by_cases h3 : ¬ amount ≤ c
    · rw [if_pos h3, if_pos h3]
      rfl
    rw [if_neg h3, if_neg h3]
    cases hs : u64sub c amount with
    | error e => rfl
    | ok rem =>
      simp only [except_bind_ok]
      cases hhf : calculateHealthFactor rem dAmt price with
      | error e => rfl
      | ok hf =>
        simp only [except_bind_ok]
        by_cases h4 : hf < MIN_HEALTH_FACTOR
        · rw [if_pos h4, if_pos h4]
          rfl
        rw [if_neg h4, if_neg h4]
        cases hr : u64sub balance c with
        | error e => rfl
        | ok rewards =>
          simp only [except_bind_ok]
          cases hm : u64mul rewards fee with
          | error e => rfl
          | ok fn =>
            simp only [except_bind_ok]
            cases hd2 : u64sub rewards (fn / 100) with
            | error e => rfl
            | ok dv =>
              simp only [except_bind_ok]
              cases hp2 : u64add amount dv with
              | error e => rfl
              | ok pay => rfl
  · unfold burnZkUsd
    dsimp only
    by_cases h1 : amount = 0
    · rw [if_pos h1, if_pos h1]
      rfl
    rw [if_neg h1, if_neg h1]
    by_cases h2 : hash secret ≠ hcom
    · rw [if_pos h2, if_pos h2]
      rfl
    rw [if_neg h2, if_neg h2]
    by_cases h3 : ¬ amount ≤ dAmt
    · rw [if_pos h3, if_pos h3]
      rfl
    rw [if_neg h3, if_neg h3]
    cases hs : u64sub dAmt amount with
    | error e => rfl
    | ok v => rfl
  · unfold liquidate
    dsimp only
    cases hhf : calculateHealthFactor c dAmt price with
    | error e => rfl
    | ok hf =>
      simp only [except_bind_ok]
      by_cases h4 : MIN_HEALTH_FACTOR < hf
      · rw [if_pos h4, if_pos h4]
        rfl
      rw [if_neg h4, if_neg h4]
      rfl
  · intro s' h
    unfold mintZkUsd at h
    dsimp only at h
    by_cases h1 : amount = 0
    · rw [if_pos h1] at h
      exact Except.noConfusion h
    rw [if_neg h1] at h
    by_cases h2 : hash secret ≠ hcom
    · rw [if_pos h2] at h
      exact Except.noConfusion h
    rw [if_neg h2] at h
    cases ha : u64add dAmt amount with
    | error e =>
      rw [ha, except_bind_error] at h
      exact Except.noConfusion h
    | ok nd =>
      rw [ha] at h
      simp only [except_bind_ok] at h
      cases hhf : calculateHealthFactor c nd price with
      | error e =>
        rw [hhf, except_bind_error] at h
        exact Except.noConfusion h
      | ok hf =>
        rw [hhf] at h
        simp only [except_bind_ok] at h
        by_cases h4 : hf < MIN_HEALTH_FACTOR
        · rw [if_pos h4] at h
          exact Except.noConfusion h
        · rw [if_neg h4] at h
          rw [← Except.ok.inj h]

/-- Closed instance of C10 (the mint conjunct at a successful mint). -/
theorem C10_witness : (⟨2 * 10 ^ 9, 10 ^ 9, 7, true⟩ : VaultState).interactionFlag = true := by
  have h := (C10_interactionFlag_frame id (2 * 10 ^ 9) 0 7 false 0 (10 ^ 9) 0 (10 ^ 9) 7).2.2.2.2.1
  exact h ⟨2 * 10 ^ 9, 10 ^ 9, 7, true⟩ (by rfl)
